import Mathlib

/-!
Shallow embedding of the FastAPI patient-record service (src/main.py).

The service stores patient records as a JSON object keyed by patient id;
each stored value is the pydantic `model_dump` of the `Pateint` model with
the `id` field excluded.  Pydantic v2 `model_dump` includes `computed_field`s,
so the dump carries `bmi` and `verdict` alongside the six declared fields.
JSON objects are modelled as association lists (insertion-ordered, unique
keys, exactly like Python dicts), JSON numbers as rationals, and Python's
`round(x, 2)` as round-half-to-even on rationals scaled by 100.
-/

namespace FastApiPateint

/-- A JSON-like value as stored in `pateints.json` or sent in a request body. -/
inductive JsonVal where
  | jstr (s : String)
  | jint (n : Int)
  | jnum (q : ℚ)
  | jnull
  deriving DecidableEq, Repr

/-- A Python dict with string keys, as an insertion-ordered association list. -/
abbrev Dict := List (String × JsonVal)

/-- The persisted collection: a JSON object mapping patient id to stored dict. -/
abbrev Store := List (String × Dict)

/-- First-match lookup in an association list (Python `d[k]` / `k in d`). -/
def assocGet {α : Type} : List (String × α) → String → Option α
  | [], _ => none
  | (k', v) :: rest, k => if k' = k then some v else assocGet rest k

/-- Python `d[k] = v`: replace the value in place if the key exists, else append. -/
def assocSet {α : Type} : List (String × α) → String → α → List (String × α)
  | [], k, v => [(k, v)]
  | (k', v') :: rest, k, v =>
    if k' = k then (k', v) :: rest else (k', v') :: assocSet rest k v

/-- The keys of a dict, in insertion order. -/
def dictKeys (d : Dict) : List String := d.map Prod.fst

/-- Python `k in d`. -/
def dictHasKey (d : Dict) (k : String) : Bool := (assocGet d k).isSome

/-- Floor of a rational. -/
def ratFloor (q : ℚ) : ℤ := ⌊q⌋

/-- Round a rational to the nearest integer, ties to even (Python's `round`). -/
def roundHalfEven (x : ℚ) : ℤ :=
  let n := ratFloor x
  let frac := x - (n : ℚ)
  if frac < 1 / 2 then n
  else if 1 / 2 < frac then n + 1
  else if n % 2 = 0 then n else n + 1

/-- Python `round(x, 2)`: round to two decimal places. -/
def roundTo2 (x : ℚ) : ℚ := (roundHalfEven (x * 100) : ℚ) / 100

/-- The BMI formula of `Pateint.bmi`: `round(weight / ((height / 100) ** 2), 2)`. -/
def computeBMI (height weight : ℚ) : ℚ := roundTo2 (weight / ((height / 100) ^ 2))

/-- The `bmi` computed field exactly as Python executes it: the division
`self.weight / ((self.height / 100) ** 2)` raises `ZeroDivisionError` when the
denominator is zero and is otherwise evaluated normally (no guard in the code). -/
def compute_bmi_raw (height weight : ℚ) : Except String ℚ :=
  if (height / 100) ^ 2 = 0 then Except.error "ZeroDivisionError"
  else Except.ok (roundTo2 (weight / ((height / 100) ^ 2)))

/-- The `Pateint` pydantic model's declared fields (src/main.py lines 9-17). -/
structure Pateint where
  id : String
  name : String
  city : String
  age : Int
  gender : String
  height : ℚ
  weight : ℚ
  deriving DecidableEq, Repr

/-- The gender enum of the `Pateint` model: `Literal['male', 'female', 'others']`. -/
def genders : List String := ["male", "female", "others"]

/-- The `bmi` computed field of `Pateint`. -/
def Pateint.bmi (p : Pateint) : ℚ := computeBMI p.height p.weight

/-- The `verdict` computed field of `Pateint`: the if/elif chain of lines 28-35. -/
def Pateint.verdict (p : Pateint) : String :=
  if p.bmi < 18.5 then "Underweight"
  else if 18.5 ≤ p.bmi ∧ p.bmi < 24.9 then "Normal weight"
  else if 25 ≤ p.bmi ∧ p.bmi < 29.9 then "Overweight"
  else "Obesity"

/-- The constraints `Pateint` validation actually imposes beyond field types:
gender in the `Literal` enum, `height > 0`, `weight > 0` (and nothing else —
`age`, `name`, `city` carry no value constraints in the model). -/
def Pateint.Valid (p : Pateint) : Prop :=
  p.gender ∈ genders ∧ 0 < p.height ∧ 0 < p.weight

instance (p : Pateint) : Decidable p.Valid := by
  unfold Pateint.Valid; exact inferInstance

/-- Read a required string field (pydantic rejects non-strings and null). -/
def getStr (d : Dict) (k : String) : Option String :=
  match assocGet d k with
  | some (JsonVal.jstr s) => some s
  | _ => none

/-- Read a required int field. -/
def getInt (d : Dict) (k : String) : Option Int :=
  match assocGet d k with
  | some (JsonVal.jint n) => some n
  | _ => none

/-- Read a required float field (pydantic accepts ints for float fields). -/
def getNum (d : Dict) (k : String) : Option ℚ :=
  match assocGet d k with
  | some (JsonVal.jint n) => some (n : ℚ)
  | some (JsonVal.jnum q) => some q
  | _ => none

/-- Pydantic validation of the `Pateint` model applied to a dict (`Pateint(**d)`):
every declared field must be present with the right type; `gender` must be in
the enum; `height` and `weight` must be `> 0` (`gt=0`).  `age` has no `gt`
constraint and `name`/`city` have no length constraint, so age `≤ 0` and empty
strings validate.  Extra keys (`bmi`, `verdict`) are ignored. -/
def validate_pateint (d : Dict) : Option Pateint :=
  match getStr d "id", getStr d "name", getStr d "city", getInt d "age",
        getStr d "gender", getNum d "height", getNum d "weight" with
  | some i, some nm, some ct, some ag, some gd, some ht, some wt =>
    if gd ∈ genders ∧ 0 < ht ∧ 0 < wt then some ⟨i, nm, ct, ag, gd, ht, wt⟩
    else none
  | _, _, _, _, _, _, _ => none

/-- `pateint.model_dump(exclude=['id'])`: the six declared fields except `id`
in declaration order, followed by the computed fields `bmi` and `verdict`
(pydantic v2 serializes computed fields in `model_dump`). -/
def model_dump_exclude_id (p : Pateint) : Dict :=
  [("name", JsonVal.jstr p.name), ("city", JsonVal.jstr p.city),
   ("age", JsonVal.jint p.age), ("gender", JsonVal.jstr p.gender),
   ("height", JsonVal.jnum p.height), ("weight", JsonVal.jnum p.weight),
   ("bmi", JsonVal.jnum p.bmi), ("verdict", JsonVal.jstr p.verdict)]

/-- The `PateintUpdate` pydantic model (src/main.py lines 37-43): all fields
optional with default `None`; `age`, `height`, `weight` carry `gt=0`.
A field set to `null` behaves like an absent field in the merge, so both are
modelled as `none`. -/
structure PateintUpdate where
  name : Option String := none
  city : Option String := none
  age : Option Int := none
  gender : Option String := none
  height : Option ℚ := none
  weight : Option ℚ := none
  deriving DecidableEq, Repr

/-- Read an optional string field from a request body: absent or null is fine,
a non-string value is a validation error. -/
def getOptStr (d : Dict) (k : String) : Option (Option String) :=
  match assocGet d k with
  | none => some none
  | some JsonVal.jnull => some none
  | some (JsonVal.jstr s) => some (some s)
  | some _ => none

/-- Read an optional int field from a request body. -/
def getOptInt (d : Dict) (k : String) : Option (Option Int) :=
  match assocGet d k with
  | none => some none
  | some JsonVal.jnull => some none
  | some (JsonVal.jint n) => some (some n)
  | some _ => none

/-- Read an optional float field from a request body. -/
def getOptNum (d : Dict) (k : String) : Option (Option ℚ) :=
  match assocGet d k with
  | none => some none
  | some JsonVal.jnull => some none
  | some (JsonVal.jint n) => some (some (n : ℚ))
  | some (JsonVal.jnum q) => some (some q)
  | some _ => none

/-- The `gt=0` constraint on an optional int field: vacuous when absent. -/
def posOptInt : Option Int → Bool
  | none => true
  | some a => decide (0 < a)

/-- The `gt=0` constraint on an optional float field: vacuous when absent. -/
def posOptNum : Option ℚ → Bool
  | none => true
  | some q => decide (0 < q)

/-- The gender enum constraint on the optional `gender` patch field. -/
def genderOptOk : Option String → Bool
  | none => true
  | some g => decide (g ∈ genders)

/-- FastAPI's schema validation of a `PateintUpdate` request body, performed
before the handler body runs: types must match and `age`, `height`, `weight`,
when present and non-null, must be `> 0`. -/
def validate_pateint_update (d : Dict) : Option PateintUpdate :=
  match getOptStr d "name", getOptStr d "city", getOptInt d "age",
        getOptStr d "gender", getOptNum d "height", getOptNum d "weight" with
  | some nm, some ct, some ag, some gd, some ht, some wt =>
    if posOptInt ag && genderOptOk gd && posOptNum ht && posOptNum wt
    then some ⟨nm, ct, ag, gd, ht, wt⟩
    else none
  | _, _, _, _, _, _ => none

/-- The merge loop of `update_pateint` (lines 131-133): for each field present
and non-null in the patch dump, assign it into the existing stored dict, in
field declaration order. -/
def apply_patch (d : Dict) (u : PateintUpdate) : Dict :=
  let d1 := match u.name with
    | some v => assocSet d "name" (JsonVal.jstr v)
    | none => d
  let d2 := match u.city with
    | some v => assocSet d1 "city" (JsonVal.jstr v)
    | none => d1
  let d3 := match u.age with
    | some v => assocSet d2 "age" (JsonVal.jint v)
    | none => d2
  let d4 := match u.gender with
    | some v => assocSet d3 "gender" (JsonVal.jstr v)
    | none => d3
  let d5 := match u.height with
    | some v => assocSet d4 "height" (JsonVal.jnum v)
    | none => d4
  match u.weight with
  | some v => assocSet d5 "weight" (JsonVal.jnum v)
  | none => d5

/-- Lines 131-137 of `update_pateint`: merge the patch into the stored dict,
reattach the id (the patch has no id field), and re-validate the whole result
through the `Pateint` model.  `none` models the pydantic `ValidationError`
raised by `Pateint(**existing_pateint_info)`. -/
def merge_validate (existing : Dict) (u : PateintUpdate) (pid : String) : Option Pateint :=
  validate_pateint (assocSet (apply_patch existing u) "id" (JsonVal.jstr pid))

/-- Result of a mutating endpoint: HTTP status plus the store after the request
(unchanged unless the handler reached `save_data`). -/
structure EndpointResult where
  status : Nat
  store : Store
  deriving DecidableEq, Repr

/-- `POST /create`: FastAPI validates the body against `Pateint` (422 on
failure, before the handler runs); the handler then rejects duplicate ids with
400 and otherwise stores `model_dump(exclude=['id'])` under the id. -/
def create_pateint (s : Store) (body : Dict) : EndpointResult :=
  match validate_pateint body with
  | none => ⟨422, s⟩
  | some p =>
    if (assocGet s p.id).isSome then ⟨400, s⟩
    else ⟨201, assocSet s p.id (model_dump_exclude_id p)⟩

/-- `PUT /edit/{pateint_id}`: FastAPI validates the body against
`PateintUpdate` (422 on failure, before the handler runs); the handler returns
404 for an unknown id; a `ValidationError` from re-validating the merged record
escapes the handler uncaught, which Starlette surfaces as a 500; on success the
re-dumped record is written back under the id. -/
def update_pateint (s : Store) (pid : String) (body : Dict) : EndpointResult :=
  match validate_pateint_update body with
  | none => ⟨422, s⟩
  | some u =>
    match assocGet s pid with
    | none => ⟨404, s⟩
    | some existing =>
      match merge_validate existing u pid with
      | none => ⟨500, s⟩
      | some p => ⟨200, assocSet s pid (model_dump_exclude_id p)⟩

/-- `GET /view`: returns the loaded store verbatim (no recomputation). -/
def view (s : Store) : Store := s

/-- `GET /pateints/{pateint_id}`: returns the stored dict verbatim, or 404. -/
def view_pateint (s : Store) (pid : String) : Except Nat Dict :=
  match assocGet s pid with
  | some d => Except.ok d
  | none => Except.error 404

/-- The `valid_fields` list of the `/sort` handler. -/
def valid_sort_fields : List String := ["height", "weight", "bmi"]

/-- The numeric sort key `lambda x: x[sort_by]` read from a stored dict,
defaulted so it can be used as a total key; used when every record holds a
numeric value at the field. -/
def sortKeyD (f : String) (d : Dict) : ℚ := (getNum d f).getD 0

/-- The string sort key `lambda x: x[sort_by]`, defaulted likewise; used when
every record holds a string value at the field (Python then compares the
strings by code point, exactly Lean's `String` order). -/
def strKeyD (f : String) (d : Dict) : String := (getStr d f).getD ""

/-- `GET /sort`: 400 for a field outside `valid_fields` or an order outside
asc/desc, both checked before the store is read; then a stable sort of
`data.values()` by the stored field value (`x[sort_by]` — for bmi this is the
persisted value, not recomputed).  Python's `sorted` computes every key first
(KeyError if the field is missing from any record) and raises TypeError only
when an incomparable pair is actually compared: all-numeric values sort
numerically, all-string values sort by code point, a collection of at most one
record sorts trivially whatever its value, and otherwise (two or more records
with mixed or unorderable values) some cross comparison is forced and the
`except` clause surfaces 500.  Python's `sorted` is stable, for `reverse=True`
too; `List.insertionSort` with a non-strict comparison places each element
before its equals and is likewise stable. -/
def sort_patients (s : Store) (sort_by order : String) : Except Nat (List Dict) :=
  if sort_by ∉ valid_sort_fields then Except.error 400
  else if order ∉ ["asc", "desc"] then Except.error 400
  else if (s.map Prod.snd).all (fun d => (getNum d sort_by).isSome) then
    Except.ok (if order = "desc"
      then List.insertionSort (fun a b => sortKeyD sort_by b ≤ sortKeyD sort_by a)
        (s.map Prod.snd)
      else List.insertionSort (fun a b => sortKeyD sort_by a ≤ sortKeyD sort_by b)
        (s.map Prod.snd))
  else if (s.map Prod.snd).all (fun d => (getStr d sort_by).isSome) then
    Except.ok (if order = "desc"
      then List.insertionSort (fun a b => strKeyD sort_by b ≤ strKeyD sort_by a)
        (s.map Prod.snd)
      else List.insertionSort (fun a b => strKeyD sort_by a ≤ strKeyD sort_by b)
        (s.map Prod.snd))
  else if (s.map Prod.snd).length ≤ 1 ∧
      (s.map Prod.snd).all (fun d => dictHasKey d sort_by) then
    Except.ok (s.map Prod.snd)
  else Except.error 500

/-- `DELETE /delete/{pateint_id}`: 404 for an unknown id, else remove the key
and write the store back. -/
def delete_pateint (s : Store) (pid : String) : EndpointResult :=
  match assocGet s pid with
  | none => ⟨404, s⟩
  | some _ => ⟨200, s.filter (fun kv => kv.1 ≠ pid)⟩

/-- Modelled from the spec: the BMI the spec says `/sort` compares when
`sort_by = "bmi"` — "bmi is computed before comparison, not stored": recompute
from the stored height and weight.  Used only to compare the spec's sort
semantics with the code's (which reads the persisted `bmi` value). -/
def spec_computed_bmi (d : Dict) : Option ℚ :=
  match getNum d "height", getNum d "weight" with
  | some h, some w => if h = 0 then none else some (computeBMI h w)
  | _, _ => none

/-!  ## Theorems for the claims -/

/-- Claim C1: for every record, the `verdict` computed field applied to the
record's rounded BMI follows exactly the spec's boundary table: `bmi < 18.5`
gives "Underweight"; `18.5 ≤ bmi < 24.9` gives "Normal weight";
`25 ≤ bmi < 29.9` gives "Overweight"; and every other bmi — the gap
`24.9 ≤ bmi < 25` and `bmi ≥ 29.9` — gives "Obesity". -/
theorem verdict_boundary_table (p : Pateint) :
    (p.bmi < 18.5 → p.verdict = "Underweight") ∧
    (18.5 ≤ p.bmi ∧ p.bmi < 24.9 → p.verdict = "Normal weight") ∧
    (25 ≤ p.bmi ∧ p.bmi < 29.9 → p.verdict = "Overweight") ∧
    ((24.9 ≤ p.bmi ∧ p.bmi < 25) ∨ 29.9 ≤ p.bmi → p.verdict = "Obesity") := by
  unfold Pateint.verdict
  refine ⟨fun h => ?_, fun h => ?_, fun h => ?_, fun h => ?_⟩
  · rw [if_pos h]
  · rw [if_neg (not_lt.mpr h.1), if_pos h]
  · have h1 : ¬ p.bmi < 18.5 := by linarith [h.1]
    have h2 : ¬ (18.5 ≤ p.bmi ∧ p.bmi < 24.9) := fun hc => by linarith [hc.2, h.1]
    rw [if_neg h1, if_neg h2, if_pos h]
  · rcases h with ⟨hlo, hhi⟩ | hob
    · have h1 : ¬ p.bmi < 18.5 := by linarith
      have h2 : ¬ (18.5 ≤ p.bmi ∧ p.bmi < 24.9) := fun hc => by linarith [hc.2]
      have h3 : ¬ (25 ≤ p.bmi ∧ p.bmi < 29.9) := fun hc => by linarith [hc.1]
      rw [if_neg h1, if_neg h2, if_neg h3]
    · have h1 : ¬ p.bmi < 18.5 := by linarith
      have h2 : ¬ (18.5 ≤ p.bmi ∧ p.bmi < 24.9) := fun hc => by linarith [hc.2]
      have h3 : ¬ (25 ≤ p.bmi ∧ p.bmi < 29.9) := fun hc => by linarith [hc.2]
      rw [if_neg h1, if_neg h2, if_neg h3]

/-- Concrete records exercising all four branches of the boundary table,
including the `[24.9, 25)` gap falling through to "Obesity": with height
100 cm the BMI equals the weight, so the verdicts follow directly. -/
theorem verdict_boundary_table_witness :
    (⟨"W1", "n", "c", 30, "male", 100, 17⟩ : Pateint).verdict = "Underweight" ∧
    (⟨"W2", "n", "c", 30, "male", 100, 20⟩ : Pateint).verdict = "Normal weight" ∧
    (⟨"W3", "n", "c", 30, "male", 100, 27⟩ : Pateint).verdict = "Overweight" ∧
    (⟨"W4", "n", "c", 30, "male", 100, 24.95⟩ : Pateint).verdict = "Obesity" ∧
    (⟨"W5", "n", "c", 30, "male", 100, 35⟩ : Pateint).verdict = "Obesity" := by
  have b1 : (⟨"W1", "n", "c", 30, "male", 100, 17⟩ : Pateint).bmi = 17 := by
    unfold Pateint.bmi computeBMI roundTo2 roundHalfEven ratFloor; norm_num
  have b2 : (⟨"W2", "n", "c", 30, "male", 100, 20⟩ : Pateint).bmi = 20 := by
    unfold Pateint.bmi computeBMI roundTo2 roundHalfEven ratFloor; norm_num
  have b3 : (⟨"W3", "n", "c", 30, "male", 100, 27⟩ : Pateint).bmi = 27 := by
    unfold Pateint.bmi computeBMI roundTo2 roundHalfEven ratFloor; norm_num
  have b4 : (⟨"W4", "n", "c", 30, "male", 100, 24.95⟩ : Pateint).bmi = 24.95 := by
    unfold Pateint.bmi computeBMI roundTo2 roundHalfEven ratFloor; norm_num
  have b5 : (⟨"W5", "n", "c", 30, "male", 100, 35⟩ : Pateint).bmi = 35 := by
    unfold Pateint.bmi computeBMI roundTo2 roundHalfEven ratFloor; norm_num
  exact ⟨(verdict_boundary_table _).1 (by rw [b1]; norm_num),
    (verdict_boundary_table _).2.1 (by rw [b2]; norm_num),
    (verdict_boundary_table _).2.2.1 (by rw [b3]; norm_num),
    (verdict_boundary_table _).2.2.2 (Or.inl (by rw [b4]; norm_num)),
    (verdict_boundary_table _).2.2.2 (Or.inr (by rw [b5]; norm_num))⟩

/-- Claim C2: for positive height and weight, `computeBMI` returns
`weight / (height/100)^2` rounded to exactly two decimal places (100 times the
result is an integer), is deterministic, and at height 175.5, weight 70 yields
22.73 with verdict "Normal weight". -/
theorem computeBMI_rounds_two_decimals (h w : ℚ) (hh : 0 < h) (hw : 0 < w) :
    (∃ n : ℤ, computeBMI h w * 100 = (n : ℚ)) ∧
    (∀ h' w', h' = h → w' = w → computeBMI h' w' = computeBMI h w) ∧
    computeBMI 175.5 70 = 22.73 ∧
    (⟨"P001", "Harsh", "Delhi", 30, "male", 175.5, 70⟩ : Pateint).verdict =
      "Normal weight" := by
  refine ⟨⟨roundHalfEven (w / ((h / 100) ^ 2) * 100), ?_⟩, ?_, ?_, ?_⟩
  · unfold computeBMI roundTo2
    rw [div_mul_cancel₀]
    norm_num
  · intro h' w' hh' hw'
    rw [hh', hw']
  · unfold computeBMI roundTo2 roundHalfEven ratFloor
    norm_num
  · unfold Pateint.verdict Pateint.bmi computeBMI roundTo2 roundHalfEven ratFloor
    norm_num

/-- The C2 property instantiated at the spec's scenario height 175.5 and
weight 70. -/
theorem computeBMI_rounds_two_decimals_witness :
    (0 : ℚ) < 175.5 ∧ (0 : ℚ) < 70 ∧
    ((∃ n : ℤ, computeBMI 175.5 70 * 100 = (n : ℚ)) ∧
     (∀ h' w', h' = (175.5 : ℚ) → w' = (70 : ℚ) → computeBMI h' w' = computeBMI 175.5 70) ∧
     computeBMI 175.5 70 = 22.73 ∧
     (⟨"P001", "Harsh", "Delhi", 30, "male", 175.5, 70⟩ : Pateint).verdict =
       "Normal weight") :=
  ⟨by norm_num, by norm_num,
    computeBMI_rounds_two_decimals 175.5 70 (by norm_num) (by norm_num)⟩

/-- Claim C3 (amended): `Pateint` validation succeeds exactly when every
declared field is present with the right type, `gender` is in the enum
`{male, female, others}` (so the spelling "other" is rejected), and
`height > 0`, `weight > 0`.  It imposes no constraint on `age` (the field has
no `gt=0`), nor on `name`/`city` being non-empty. -/
theorem validate_pateint_characterization (d : Dict) :
    ((validate_pateint d).isSome ↔
      ((∃ i, getStr d "id" = some i) ∧ (∃ nm, getStr d "name" = some nm) ∧
       (∃ ct, getStr d "city" = some ct) ∧ (∃ ag, getInt d "age" = some ag) ∧
       (∃ gd, getStr d "gender" = some gd ∧ gd ∈ genders) ∧
       (∃ ht, getNum d "height" = some ht ∧ 0 < ht) ∧
       (∃ wt, getNum d "weight" = some wt ∧ 0 < wt))) ∧
    (∀ p, validate_pateint d = some p → p.Valid) ∧
    (getStr d "gender" = some "other" → validate_pateint d = none) := by
  unfold validate_pateint
  rcases h1 : getStr d "id" with _ | i <;>
    rcases h2 : getStr d "name" with _ | nm <;>
      rcases h3 : getStr d "city" with _ | ct <;>
        rcases h4 : getInt d "age" with _ | ag <;>
          rcases h5 : getStr d "gender" with _ | gd <;>
            rcases h6 : getNum d "height" with _ | ht <;>
              rcases h7 : getNum d "weight" with _ | wt <;>
                simp_all [Pateint.Valid]
  refine ⟨?_, ?_⟩
  · rintro p hg hht hwt rfl
    exact ⟨hg, hht, hwt⟩
  · rintro rfl habs
    exact absurd habs (by decide)

/-- Counterexample to claim C3 as stated: a full field set with empty `name`,
empty `city` and `age = -5` is accepted by `Pateint` validation (the model has
no non-empty or positivity constraints there), where the claim requires
validation to fail. -/
theorem validate_pateint_accepts_bad_fields :
    validate_pateint
        [("id", JsonVal.jstr "P1"), ("name", JsonVal.jstr ""),
         ("city", JsonVal.jstr ""), ("age", JsonVal.jint (-5)),
         ("gender", JsonVal.jstr "male"), ("height", JsonVal.jnum 175),
         ("weight", JsonVal.jnum 70)] =
      some ⟨"P1", "", "", -5, "male", 175, 70⟩ := by
  decide

/-- Claim C4 (amended): the value persisted by a successful create or edit is
`model_dump(exclude=['id'])` of the validated record, which holds exactly the
eight keys name, city, age, gender, height, weight, bmi, verdict — pydantic v2
serializes the two computed fields, so `bmi` and `verdict` ARE persisted; they
are recomputed at each successful create/edit before writing, and reads return
the stored value verbatim without recomputation. -/
theorem persisted_value_contents :
    (∀ p : Pateint, dictKeys (model_dump_exclude_id p) =
        ["name", "city", "age", "gender", "height", "weight", "bmi", "verdict"] ∧
      assocGet (model_dump_exclude_id p) "bmi" = some (JsonVal.jnum p.bmi) ∧
      assocGet (model_dump_exclude_id p) "verdict" = some (JsonVal.jstr p.verdict)) ∧
    (∀ (s : Store) (body : Dict) (p : Pateint), validate_pateint body = some p →
      assocGet s p.id = none →
      create_pateint s body = ⟨201, assocSet s p.id (model_dump_exclude_id p)⟩) ∧
    (∀ (s : Store) (pid : String) (body : Dict) (u : PateintUpdate) (ex : Dict)
        (p : Pateint),
      validate_pateint_update body = some u → assocGet s pid = some ex →
      merge_validate ex u pid = some p →
      update_pateint s pid body = ⟨200, assocSet s pid (model_dump_exclude_id p)⟩) ∧
    (∀ (s : Store) (pid : String) (d : Dict), assocGet s pid = some d →
      view_pateint s pid = Except.ok d) := by
  refine ⟨fun p => ⟨rfl, ?_, ?_⟩, fun s body p hv habs => ?_, ?_, fun s pid d h => ?_⟩
  · simp [model_dump_exclude_id, assocGet]
  · simp [model_dump_exclude_id, assocGet]
  · unfold create_pateint
    rw [hv]
    simp [habs]
  · intro s pid body u ex p hu hex hm
    unfold update_pateint
    simp only [hu, hex, hm]
  · unfold view_pateint
    rw [h]

/-- The create body of the spec's scenario, with integral height so that every
step is kernel-computable. -/
def p001_body : Dict :=
  [("id", JsonVal.jstr "P001"), ("name", JsonVal.jstr "Harsh"),
   ("city", JsonVal.jstr "Delhi"), ("age", JsonVal.jint 30),
   ("gender", JsonVal.jstr "male"), ("height", JsonVal.jnum 175),
   ("weight", JsonVal.jnum 70)]

/-- Counterexample to claim C4 as stated: after a successful create, the value
persisted under "P001" DOES contain the keys `bmi` and `verdict` (pydantic v2
`model_dump` serializes computed fields), where the claim says the stored value
never contains them. -/
theorem create_persists_bmi_and_verdict :
    Option.map (fun d => (dictHasKey d "bmi", dictHasKey d "verdict"))
        (assocGet (create_pateint [] p001_body).store "P001") =
      some (true, true) := by
  have hv : validate_pateint p001_body =
      some ⟨"P001", "Harsh", "Delhi", 30, "male", 175, 70⟩ := by decide
  unfold create_pateint
  rw [hv]
  simp [assocGet, assocSet, model_dump_exclude_id, dictHasKey]

/-- Claim C5 (amended): for `PUT /edit/{id}` — a body failing `PateintUpdate`
schema validation yields 422 with the store untouched; a valid body with an
unknown id yields 404 with the store untouched; a valid body whose merged
record fails `Pateint` re-validation lets the `ValidationError` escape the
handler, surfaced as 500 (not 422/400), still with the store untouched; the
store changes only on a 200. -/
theorem edit_failure_leaves_store_unchanged (s : Store) (pid : String) (body : Dict) :
    (validate_pateint_update body = none → update_pateint s pid body = ⟨422, s⟩) ∧
    (∀ u, validate_pateint_update body = some u → assocGet s pid = none →
      update_pateint s pid body = ⟨404, s⟩) ∧
    (∀ u ex, validate_pateint_update body = some u → assocGet s pid = some ex →
      merge_validate ex u pid = none → update_pateint s pid body = ⟨500, s⟩) ∧
    ((update_pateint s pid body).store ≠ s → (update_pateint s pid body).status = 200) := by
  refine ⟨fun h => ?_, fun u hu habs => ?_, fun u ex hu hex hm => ?_, fun hne => ?_⟩
  · unfold update_pateint
    rw [h]
  · unfold update_pateint
    rw [hu, habs]
  · unfold update_pateint
    simp only [hu, hex, hm]
  · rcases hu : validate_pateint_update body with _ | u
    · have heq : update_pateint s pid body = ⟨422, s⟩ := by
        unfold update_pateint
        rw [hu]
      rw [heq] at hne
      exact absurd rfl hne
    · rcases hex : assocGet s pid with _ | ex
      · have heq : update_pateint s pid body = ⟨404, s⟩ := by
          unfold update_pateint
          simp only [hu, hex]
        rw [heq] at hne
        exact absurd rfl hne
      · rcases hm : merge_validate ex u pid with _ | p
        · have heq : update_pateint s pid body = ⟨500, s⟩ := by
            unfold update_pateint
            simp only [hu, hex, hm]
          rw [heq] at hne
          exact absurd rfl hne
        · have heq : update_pateint s pid body =
              ⟨200, assocSet s pid (model_dump_exclude_id p)⟩ := by
            unfold update_pateint
            simp only [hu, hex, hm]
          rw [heq]

/-- A store holding one record that is invalid for the `Pateint` model
(height −1, as can arise only from a hand-edited `pateints.json`). -/
def invalid_height_store : Store :=
  [("P1", [("name", JsonVal.jstr "A"), ("city", JsonVal.jstr "B"),
           ("age", JsonVal.jint 30), ("gender", JsonVal.jstr "male"),
           ("height", JsonVal.jnum (-1)), ("weight", JsonVal.jnum 70)])]

/-- Counterexample to claim C5 as stated: an edit whose merged record fails
validation (existing stored height −1, empty patch) produces status 500 — the
uncaught `ValidationError` — not the 422 or 400 the claim requires (the store
is indeed left unchanged). -/
theorem edit_merge_failure_returns_500 :
    update_pateint invalid_height_store "P1" [] = ⟨500, invalid_height_store⟩ ∧
    (500 : Nat) ≠ 422 ∧ (500 : Nat) ≠ 400 := by
  refine ⟨by decide, by decide, by decide⟩

/-- Helper: a record produced by `Pateint` validation satisfies the model's
constraints (gender in the enum, positive height and weight). -/
theorem validate_pateint_valid (d : Dict) (p : Pateint)
    (h : validate_pateint d = some p) : p.Valid := by
  unfold validate_pateint at h
  split at h
  · split_ifs at h with hc
    cases h
    exact ⟨hc.1, hc.2.1, hc.2.2⟩
  · exact absurd h (by simp)

/-- Claim C7 (amended): the BMI division in the code is NOT guarded: at
`height = 0` it raises an unhandled `ZeroDivisionError` (no `DomainError`),
and at `height < 0` it quietly returns a finite BMI computed with the squared
height; model validation enforces `height > 0`, so within the service the
computed field is never evaluated at a non-positive height, where it agrees
with the raw computation. -/
theorem compute_bmi_raw_behavior (h w : ℚ) :
    (h = 0 → compute_bmi_raw h w = Except.error "ZeroDivisionError") ∧
    (h ≠ 0 → compute_bmi_raw h w = Except.ok (computeBMI h w)) ∧
    (∀ (d : Dict) (p : Pateint), validate_pateint d = some p → 0 < p.height) ∧
    (∀ p : Pateint, 0 < p.height → compute_bmi_raw p.height p.weight = Except.ok p.bmi) := by
  refine ⟨fun h0 => ?_, fun hne => ?_, fun d p hv => (validate_pateint_valid d p hv).2.1,
    fun p hp => ?_⟩
  · subst h0
    unfold compute_bmi_raw
    norm_num
  · have hd : (h / 100) ^ 2 ≠ 0 := pow_ne_zero 2 (div_ne_zero hne (by norm_num))
    unfold compute_bmi_raw computeBMI
    rw [if_neg hd]
  · have hd : (p.height / 100) ^ 2 ≠ 0 :=
      pow_ne_zero 2 (div_ne_zero (ne_of_gt hp) (by norm_num))
    unfold compute_bmi_raw Pateint.bmi computeBMI
    rw [if_neg hd]

/-- Counterexample to claim C7 as stated: at height −175 (≤ 0) the raw BMI
computation does not fail with any `DomainError` — it returns the finite value
22.86 (the square erases the sign); and at height 0 it raises
`ZeroDivisionError`, an unhandled exception, not a `DomainError`. -/
theorem compute_bmi_raw_no_guard :
    compute_bmi_raw (-175) 70 = Except.ok 22.86 ∧ ((-175 : ℚ) ≤ 0) ∧
    compute_bmi_raw 0 70 = Except.error "ZeroDivisionError" := by
  refine ⟨?_, by norm_num, ?_⟩
  · unfold compute_bmi_raw roundTo2 roundHalfEven ratFloor
    norm_num
  · unfold compute_bmi_raw
    norm_num

/-- The C7 behaviour instantiated: height 0 raises `ZeroDivisionError`, and a
validated record's positive height makes the raw computation return its bmi. -/
theorem compute_bmi_raw_behavior_witness :
    compute_bmi_raw 0 70 = Except.error "ZeroDivisionError" ∧
    compute_bmi_raw 100 17 =
      Except.ok (⟨"W1", "n", "c", 30, "male", 100, 17⟩ : Pateint).bmi :=
  ⟨(compute_bmi_raw_behavior 0 70).1 rfl,
    (compute_bmi_raw_behavior 100 17).2.2.2
      ⟨"W1", "n", "c", 30, "male", 100, 17⟩ (by norm_num)⟩

/-- Helper: validation is a left inverse of `model_dump(exclude=['id'])` with
the id reattached, for any record satisfying the model constraints — the
computed fields in the dump are ignored by validation. -/
theorem validate_dump (p : Pateint) (hp : p.Valid) :
    validate_pateint (assocSet (model_dump_exclude_id p) "id" (JsonVal.jstr p.id)) =
      some p := by
  obtain ⟨hg, hh, hw⟩ := hp
  unfold validate_pateint model_dump_exclude_id
  simp [assocSet, getStr, getInt, getNum, assocGet, String.reduceEq, hg, hh, hw]

/-- Claim C8: merging an empty patch into a valid existing record re-validates
to a record equal to the original, and the full edit endpoint on such a store
returns 200 with the store unchanged. -/
theorem merge_empty_patch_identity (p : Pateint) (hp : p.Valid) :
    merge_validate (model_dump_exclude_id p) {} p.id = some p ∧
    update_pateint [(p.id, model_dump_exclude_id p)] p.id [] =
      ⟨200, [(p.id, model_dump_exclude_id p)]⟩ := by
  have hm : merge_validate (model_dump_exclude_id p) {} p.id = some p :=
    validate_dump p hp
  refine ⟨hm, ?_⟩
  have h1 : validate_pateint_update [] = some {} := rfl
  have h2 : assocGet [(p.id, model_dump_exclude_id p)] p.id =
      some (model_dump_exclude_id p) := by
    simp [assocGet]
  unfold update_pateint
  simp only [h1, h2, hm]
  simp [assocSet]

/-- Claim C8 at the concrete record P1. -/
theorem merge_empty_patch_identity_witness :
    (⟨"P1", "A", "B", 30, "male", 175, 70⟩ : Pateint).Valid ∧
    (merge_validate (model_dump_exclude_id ⟨"P1", "A", "B", 30, "male", 175, 70⟩) {} "P1" =
        some ⟨"P1", "A", "B", 30, "male", 175, 70⟩ ∧
      update_pateint [("P1", model_dump_exclude_id ⟨"P1", "A", "B", 30, "male", 175, 70⟩)]
          "P1" [] =
        ⟨200, [("P1", model_dump_exclude_id ⟨"P1", "A", "B", 30, "male", 175, 70⟩)]⟩) :=
  ⟨by decide, merge_empty_patch_identity ⟨"P1", "A", "B", 30, "male", 175, 70⟩ (by decide)⟩

/-- Claim C9: merging a patch whose only present field is `city` into a valid
existing record yields exactly the original record with `city` replaced: id,
name, age, gender, height and weight are untouched, and the id comes from the
path, never the patch (`PateintUpdate` has no id field). -/
theorem merge_city_only_preserves_fields (p : Pateint) (c : String) (hp : p.Valid) :
    merge_validate (model_dump_exclude_id p) { city := some c } p.id =
      some { p with city := c } ∧
    ({ p with city := c } : Pateint).id = p.id ∧
    ({ p with city := c } : Pateint).name = p.name ∧
    ({ p with city := c } : Pateint).age = p.age ∧
    ({ p with city := c } : Pateint).gender = p.gender ∧
    ({ p with city := c } : Pateint).height = p.height ∧
    ({ p with city := c } : Pateint).weight = p.weight ∧
    ({ p with city := c } : Pateint).city = c := by
  refine ⟨?_, rfl, rfl, rfl, rfl, rfl, rfl, rfl⟩
  have hstep : merge_validate (model_dump_exclude_id p) { city := some c } p.id =
      validate_pateint
        (assocSet (assocSet (model_dump_exclude_id p) "city" (JsonVal.jstr c))
          "id" (JsonVal.jstr p.id)) := rfl
  have hd : assocSet (model_dump_exclude_id p) "city" (JsonVal.jstr c) =
      model_dump_exclude_id { p with city := c } := rfl
  rw [hstep, hd]
  exact validate_dump { p with city := c } ⟨hp.1, hp.2.1, hp.2.2⟩

/-- Claim C9 at the concrete record P1 with the city changed to Mumbai. -/
theorem merge_city_only_preserves_fields_witness :
    (⟨"P1", "A", "B", 30, "male", 175, 70⟩ : Pateint).Valid ∧
    merge_validate (model_dump_exclude_id ⟨"P1", "A", "B", 30, "male", 175, 70⟩)
        { city := some "Mumbai" } "P1" =
      some ⟨"P1", "A", "Mumbai", 30, "male", 175, 70⟩ :=
  ⟨by decide,
    (merge_city_only_preserves_fields ⟨"P1", "A", "B", 30, "male", 175, 70⟩ "Mumbai"
      (by decide)).1⟩

/-- Helper: `PateintUpdate` schema validation succeeds exactly when every
present field has the right type and the `gt=0` and enum checks pass. -/
theorem validate_update_isSome_iff (d : Dict) :
    (validate_pateint_update d).isSome ↔
      (∃ nm, getOptStr d "name" = some nm) ∧ (∃ ct, getOptStr d "city" = some ct) ∧
      (∃ ag, getOptInt d "age" = some ag ∧ posOptInt ag = true) ∧
      (∃ gd, getOptStr d "gender" = some gd ∧ genderOptOk gd = true) ∧
      (∃ ht, getOptNum d "height" = some ht ∧ posOptNum ht = true) ∧
      (∃ wt, getOptNum d "weight" = some wt ∧ posOptNum wt = true) := by
  unfold validate_pateint_update
  rcases h1 : getOptStr d "name" with _ | nm <;>
    rcases h2 : getOptStr d "city" with _ | ct <;>
      rcases h3 : getOptInt d "age" with _ | ag <;>
        rcases h4 : getOptStr d "gender" with _ | gd <;>
          rcases h5 : getOptNum d "height" with _ | ht <;>
            rcases h6 : getOptNum d "weight" with _ | wt <;>
              simp_all [and_assoc]

/-- Claim C10: a `PUT /edit/{id}` body carrying `age`, `height` or `weight`
with a non-positive value is rejected by `PateintUpdate` schema validation with
422 before any lookup, merge or store write — the store is returned unchanged —
even though the create-side `Pateint` model places no lower bound on age
(it accepts the full field set Q1 with age −7). -/
theorem edit_rejects_nonpositive_patch (s : Store) (pid : String) (body : Dict)
    (hbad : (∃ a : Int, assocGet body "age" = some (JsonVal.jint a) ∧ a ≤ 0) ∨
            (∃ q : ℚ, assocGet body "height" = some (JsonVal.jnum q) ∧ q ≤ 0) ∨
            (∃ q : ℚ, assocGet body "weight" = some (JsonVal.jnum q) ∧ q ≤ 0)) :
    update_pateint s pid body = ⟨422, s⟩ ∧
    (validate_pateint
        [("id", JsonVal.jstr "Q1"), ("name", JsonVal.jstr "N"),
         ("city", JsonVal.jstr "C"), ("age", JsonVal.jint (-7)),
         ("gender", JsonVal.jstr "female"), ("height", JsonVal.jnum 160),
         ("weight", JsonVal.jnum 60)]).isSome = true := by
  refine ⟨?_, by decide⟩
  have hnone : validate_pateint_update body = none := by
    rw [← Option.not_isSome_iff_eq_none, validate_update_isSome_iff]
    intro hsome
    rcases hbad with ⟨a, ha, hle⟩ | ⟨q, ha, hle⟩ | ⟨q, ha, hle⟩
    · obtain ⟨ag, hag, hpos⟩ := hsome.2.2.1
      rw [getOptInt, ha] at hag
      cases hag
      rw [posOptInt] at hpos
      exact absurd (of_decide_eq_true hpos) (not_lt.mpr hle)
    · obtain ⟨ht, hht, hpos⟩ := hsome.2.2.2.2.1
      rw [getOptNum, ha] at hht
      cases hht
      rw [posOptNum] at hpos
      exact absurd (of_decide_eq_true hpos) (not_lt.mpr hle)
    · obtain ⟨wt, hwt, hpos⟩ := hsome.2.2.2.2.2
      rw [getOptNum, ha] at hwt
      cases hwt
      rw [posOptNum] at hpos
      exact absurd (of_decide_eq_true hpos) (not_lt.mpr hle)
  unfold update_pateint
  rw [hnone]

/-- Claim C10 at a concrete request: body with age −1 against an empty store. -/
theorem edit_rejects_nonpositive_patch_witness :
    ((∃ a : Int, assocGet [("age", JsonVal.jint (-1))] "age" = some (JsonVal.jint a) ∧ a ≤ 0) ∨
      (∃ q : ℚ, assocGet [("age", JsonVal.jint (-1))] "height" = some (JsonVal.jnum q) ∧ q ≤ 0) ∨
      (∃ q : ℚ, assocGet [("age", JsonVal.jint (-1))] "weight" = some (JsonVal.jnum q) ∧ q ≤ 0)) ∧
    (update_pateint [] "X" [("age", JsonVal.jint (-1))] = ⟨422, []⟩ ∧
      (validate_pateint
          [("id", JsonVal.jstr "Q1"), ("name", JsonVal.jstr "N"),
           ("city", JsonVal.jstr "C"), ("age", JsonVal.jint (-7)),
           ("gender", JsonVal.jstr "female"), ("height", JsonVal.jnum 160),
           ("weight", JsonVal.jnum 60)]).isSome = true) :=
  ⟨Or.inl ⟨-1, by decide, by decide⟩,
    edit_rejects_nonpositive_patch [] "X" [("age", JsonVal.jint (-1))]
      (Or.inl ⟨-1, by decide, by decide⟩)⟩

/-- Helper for stability: inserting `a` with `orderedInsert` walks only past
elements whose key differs from `k a` (for a key-based relation), so the
key-`v` subsequence gains `a` at the front when `k a = v` and is untouched
otherwise. -/
theorem filter_orderedInsert_key {α β : Type} [DecidableEq β] (r : α → α → Prop)
    [DecidableRel r]
    (k : α → β) (hr : ∀ x y, ¬ r x y → k y ≠ k x) (a : α) (l : List α) (v : β) :
    (List.orderedInsert r a l).filter (fun x => decide (k x = v)) =
      if k a = v then a :: l.filter (fun x => decide (k x = v))
      else l.filter (fun x => decide (k x = v)) := by
  induction l with
  | nil =>
    rw [List.orderedInsert]
    by_cases hav : k a = v
    · rw [if_pos hav]
      simp [List.filter_cons, hav]
    · rw [if_neg hav]
      simp [List.filter_cons, hav]
  | cons b t ih =>
    rw [List.orderedInsert]
    by_cases hab : r a b
    · rw [if_pos hab]
      by_cases hav : k a = v
      · rw [if_pos hav]
        simp [List.filter_cons, hav]
      · rw [if_neg hav]
        simp [List.filter_cons, hav]
    · rw [if_neg hab]
      have hba : k b ≠ k a := hr a b hab
      by_cases hav : k a = v
      · have hbv : ¬ k b = v := fun hh => hba (hh.trans hav.symm)
        rw [if_pos hav]
        simp [List.filter_cons, hbv, ih, hav]
      · rw [if_neg hav, List.filter_cons, List.filter_cons, ih, if_neg hav]

/-- Helper for stability: insertion sort with a key-based relation preserves
the subsequence of elements at any fixed key value. -/
theorem filter_insertionSort_key {α β : Type} [DecidableEq β] (r : α → α → Prop)
    [DecidableRel r]
    (k : α → β) (hr : ∀ x y, ¬ r x y → k y ≠ k x) (l : List α) (v : β) :
    (List.insertionSort r l).filter (fun x => decide (k x = v)) =
      l.filter (fun x => decide (k x = v)) := by
  induction l with
  | nil => rfl
  | cons a t ih =>
    rw [List.insertionSort, filter_orderedInsert_key r k hr a _ v]
    by_cases hav : k a = v
    · rw [if_pos hav, ih, List.filter_cons]
      simp [hav]
    · rw [if_neg hav, ih, List.filter_cons]
      simp [hav]

/-- Helper: one stored value cannot be both a number and a string, so a
collection whose values are all numeric and all strings is empty. -/
theorem not_num_and_str (d : Dict) (f : String) :
    ¬ ((getNum d f).isSome = true ∧ (getStr d f).isSome = true) := by
  unfold getNum getStr
  rcases assocGet d f with _ | v
  · simp
  · cases v <;> simp

/-- Claim C6 (amended): `/sort` rejects a field outside height/weight/bmi, or
an order outside asc/desc, with 400 before reading the store.  With valid
arguments it sorts the stored values by the STORED field value — for bmi the
persisted number, not one recomputed from height and weight — ascending for
asc and descending for desc, ties preserving storage order (the key-`v`
subsequences are untouched): numerically when every record holds a number at
the field, by code point when every record holds a string; a collection of at
most one record with the field present is returned as-is.  It returns 500
exactly in the cases where Python's `sorted` raises: a record missing the
field (KeyError), or at least two records with mixed or unorderable values at
it (TypeError). -/
theorem sort_patients_amended (s : Store) (f o : String) :
    (f ∉ valid_sort_fields → sort_patients s f o = Except.error 400) ∧
    (f ∈ valid_sort_fields → o ∉ ["asc", "desc"] →
      sort_patients s f o = Except.error 400) ∧
    (f ∈ valid_sort_fields → (o = "asc" ∨ o = "desc") →
      ((s.map Prod.snd).all fun d => (getNum d f).isSome) = true →
      ∃ l, sort_patients s f o = Except.ok l ∧
        l.Perm (s.map Prod.snd) ∧
        (o = "asc" → l.Pairwise (fun a b => sortKeyD f a ≤ sortKeyD f b)) ∧
        (o = "desc" → l.Pairwise (fun a b => sortKeyD f b ≤ sortKeyD f a)) ∧
        (∀ v : ℚ, l.filter (fun d => decide (sortKeyD f d = v)) =
          (s.map Prod.snd).filter (fun d => decide (sortKeyD f d = v)))) ∧
    (f ∈ valid_sort_fields → (o = "asc" ∨ o = "desc") →
      ((s.map Prod.snd).all fun d => (getStr d f).isSome) = true →
      ∃ l, sort_patients s f o = Except.ok l ∧
        l.Perm (s.map Prod.snd) ∧
        (o = "asc" → l.Pairwise (fun a b => strKeyD f a ≤ strKeyD f b)) ∧
        (o = "desc" → l.Pairwise (fun a b => strKeyD f b ≤ strKeyD f a)) ∧
        (∀ v : String, l.filter (fun d => decide (strKeyD f d = v)) =
          (s.map Prod.snd).filter (fun d => decide (strKeyD f d = v)))) ∧
    (f ∈ valid_sort_fields → (o = "asc" ∨ o = "desc") →
      (s.map Prod.snd).length ≤ 1 →
      ((s.map Prod.snd).all fun d => dictHasKey d f) = true →
      sort_patients s f o = Except.ok (s.map Prod.snd)) ∧
    (f ∈ valid_sort_fields → (o = "asc" ∨ o = "desc") →
      ((s.map Prod.snd).all fun d => (getNum d f).isSome) ≠ true →
      ((s.map Prod.snd).all fun d => (getStr d f).isSome) ≠ true →
      ¬ ((s.map Prod.snd).length ≤ 1 ∧
        ((s.map Prod.snd).all fun d => dictHasKey d f) = true) →
      sort_patients s f o = Except.error 500) := by
  refine ⟨fun hf => ?_, fun hf ho => ?_, fun hf ho hall => ?_, fun hf ho hall => ?_,
    fun hf ho hlen hkeys => ?_, fun hf ho hnum hstr hrest => ?_⟩
  · unfold sort_patients
    rw [if_pos hf]
  · unfold sort_patients
    rw [if_neg (not_not_intro hf), if_pos ho]
  · have hoin : ¬ o ∉ ["asc", "desc"] := by
      rcases ho with rfl | rfl <;> simp
    unfold sort_patients
    rw [if_neg (not_not_intro hf), if_neg hoin, if_pos hall]
    rcases ho with rfl | rfl
    · rw [if_neg (by decide : ¬ ("asc" : String) = "desc")]
      refine ⟨_, rfl, List.perm_insertionSort _ _, fun _ => ?_, fun hc => ?_, fun v => ?_⟩
      · haveI : IsTotal Dict (fun a b => sortKeyD f a ≤ sortKeyD f b) :=
          ⟨fun a b => le_total _ _⟩
        haveI : IsTrans Dict (fun a b => sortKeyD f a ≤ sortKeyD f b) :=
          ⟨fun _ _ _ hab hbc => le_trans hab hbc⟩
        exact List.sorted_insertionSort _ _
      · exact absurd hc (by decide)
      · exact filter_insertionSort_key _ (sortKeyD f)
          (fun x y hxy => ne_of_lt (lt_of_not_le hxy)) _ v
    · rw [if_pos rfl]
      refine ⟨_, rfl, List.perm_insertionSort _ _, fun hc => ?_, fun _ => ?_, fun v => ?_⟩
      · exact absurd hc (by decide)
      · haveI : IsTotal Dict (fun a b => sortKeyD f b ≤ sortKeyD f a) :=
          ⟨fun a b => le_total _ _⟩
        haveI : IsTrans Dict (fun a b => sortKeyD f b ≤ sortKeyD f a) :=
          ⟨fun _ _ _ hab hbc => le_trans hbc hab⟩
        exact List.sorted_insertionSort _ _
      · exact filter_insertionSort_key _ (sortKeyD f)
          (fun x y hxy => (ne_of_lt (lt_of_not_le hxy)).symm) _ v
  · have hoin : ¬ o ∉ ["asc", "desc"] := by
      rcases ho with rfl | rfl <;> simp
    by_cases hnum : ((s.map Prod.snd).all fun d => (getNum d f).isSome) = true
    · have hnil : s.map Prod.snd = [] := by
        rcases hmap : s.map Prod.snd with _ | ⟨d, t⟩
        · rfl
        · exfalso
          rw [hmap, List.all_cons, Bool.and_eq_true] at hnum hall
          exact not_num_and_str d f ⟨hnum.1, hall.1⟩
      refine ⟨[], ?_, by rw [hnil], fun _ => List.Pairwise.nil, fun _ => List.Pairwise.nil,
        fun v => by rw [hnil]⟩
      unfold sort_patients
      rw [if_neg (not_not_intro hf), if_neg hoin, if_pos hnum, hnil]
      rcases ho with rfl | rfl
      · rw [if_neg (by decide : ¬ ("asc" : String) = "desc")]
        rfl
      · rw [if_pos rfl]
        rfl
    · unfold sort_patients
      rw [if_neg (not_not_intro hf), if_neg hoin, if_neg hnum, if_pos hall]
      rcases ho with rfl | rfl
      · rw [if_neg (by decide : ¬ ("asc" : String) = "desc")]
        refine ⟨_, rfl, List.perm_insertionSort _ _, fun _ => ?_, fun hc => ?_, fun v => ?_⟩
        · haveI : IsTotal Dict (fun a b => strKeyD f a ≤ strKeyD f b) :=
            ⟨fun a b => le_total _ _⟩
          haveI : IsTrans Dict (fun a b => strKeyD f a ≤ strKeyD f b) :=
            ⟨fun _ _ _ hab hbc => le_trans hab hbc⟩
          exact List.sorted_insertionSort _ _
        · exact absurd hc (by decide)
        · exact filter_insertionSort_key _ (strKeyD f)
            (fun x y hxy => ne_of_lt (lt_of_not_le hxy)) _ v
      · rw [if_pos rfl]
        refine ⟨_, rfl, List.perm_insertionSort _ _, fun hc => ?_, fun _ => ?_, fun v => ?_⟩
        · exact absurd hc (by decide)
        · haveI : IsTotal Dict (fun a b => strKeyD f b ≤ strKeyD f a) :=
            ⟨fun a b => le_total _ _⟩
          haveI : IsTrans Dict (fun a b => strKeyD f b ≤ strKeyD f a) :=
            ⟨fun _ _ _ hab hbc => le_trans hbc hab⟩
          exact List.sorted_insertionSort _ _
        · exact filter_insertionSort_key _ (strKeyD f)
            (fun x y hxy => (ne_of_lt (lt_of_not_le hxy)).symm) _ v
  · have hoin : ¬ o ∉ ["asc", "desc"] := by
      rcases ho with rfl | rfl <;> simp
    unfold sort_patients
    rw [if_neg (not_not_intro hf), if_neg hoin]
    rcases hmap : s.map Prod.snd with _ | ⟨d, t⟩
    · have hnum0 : (([] : List Dict).all fun d => (getNum d f).isSome) = true := rfl
      rw [if_pos hnum0]
      rcases ho with rfl | rfl
      · rw [if_neg (by decide : ¬ ("asc" : String) = "desc")]
        rfl
      · rw [if_pos rfl]
        rfl
    · rw [hmap] at hlen hkeys
      have ht : t = [] := by
        cases t with
        | nil => rfl
        | cons e t' => simp at hlen
      subst ht
      by_cases hnum : ([d].all fun x => (getNum x f).isSome) = true
      · rw [if_pos hnum]
        rcases ho with rfl | rfl
        · rw [if_neg (by decide : ¬ ("asc" : String) = "desc")]
          rfl
        · rw [if_pos rfl]
          rfl
      · rw [if_neg hnum]
        by_cases hstr : ([d].all fun x => (getStr x f).isSome) = true
        · rw [if_pos hstr]
          rcases ho with rfl | rfl
          · rw [if_neg (by decide : ¬ ("asc" : String) = "desc")]
            rfl
          · rw [if_pos rfl]
            rfl
        · rw [if_neg hstr, if_pos ⟨by simp, hkeys⟩]
  · have hoin : ¬ o ∉ ["asc", "desc"] := by
      rcases ho with rfl | rfl <;> simp
    unfold sort_patients
    rw [if_neg (not_not_intro hf), if_neg hoin, if_neg hnum, if_neg hstr, if_neg hrest]

/-- A stored record whose persisted `bmi` (10) disagrees with the bmi its
height and weight give (50). -/
def storedA : Dict :=
  [("height", JsonVal.jnum 100), ("weight", JsonVal.jnum 50), ("bmi", JsonVal.jnum 10)]

/-- A stored record whose persisted `bmi` (30) disagrees with the bmi its
height and weight give (20). -/
def storedB : Dict :=
  [("height", JsonVal.jnum 100), ("weight", JsonVal.jnum 20), ("bmi", JsonVal.jnum 30)]

/-- Counterexample to claim C6 as stated: sorting by bmi compares the STORED
`x['bmi']` values (`10 < 30` puts A before B), not bmi computed before the
comparison from height and weight (which would give A the larger bmi, 50
against 20, and put B first): the returned order is descending in the computed
bmi, refuting "bmi computed before comparison". -/
theorem sort_by_bmi_uses_stored_value :
    sort_patients [("A", storedA), ("B", storedB)] "bmi" "asc" =
      Except.ok [storedA, storedB] ∧
    spec_computed_bmi storedA = some 50 ∧
    spec_computed_bmi storedB = some 20 ∧
    ¬ (50 : ℚ) ≤ 20 := by
  refine ⟨?_, ?_, ?_, by norm_num⟩
  · unfold sort_patients
    rw [if_neg (by decide), if_neg (by decide), if_pos (by decide), if_neg (by decide)]
    exact congrArg Except.ok (by decide)
  · have h1 : getNum storedA "height" = some 100 := by decide
    have h2 : getNum storedA "weight" = some 50 := by decide
    unfold spec_computed_bmi
    rw [h1, h2]
    show (if (100 : ℚ) = 0 then none else some (computeBMI 100 50)) = some 50
    rw [if_neg (by norm_num : ¬ (100 : ℚ) = 0)]
    congr 1
    unfold computeBMI roundTo2 roundHalfEven ratFloor
    norm_num
  · have h1 : getNum storedB "height" = some 100 := by decide
    have h2 : getNum storedB "weight" = some 20 := by decide
    unfold spec_computed_bmi
    rw [h1, h2]
    show (if (100 : ℚ) = 0 then none else some (computeBMI 100 20)) = some 20
    rw [if_neg (by norm_num : ¬ (100 : ℚ) = 0)]
    congr 1
    unfold computeBMI roundTo2 roundHalfEven ratFloor
    norm_num

end FastApiPateint
